import Mathlib

/-!
Verification of the expression/statement IR of `nmigen/fhdl/ast.py`.

The Python classes are embedded shallowly: every `Value` node becomes a
constructor of an inductive type, every constructor-time validation becomes a
function into `Except String _` (the string names the Python exception that
the corresponding `raise` would produce), and width/sign inference becomes a
recursive function on the tree.  Python integers are `Int`; Python object
identity for `Signal` instances is represented by the `duid` field, which the
`DUID` allocator makes unique per instance.  The `name` field of `Signal` is
omitted: it is a best-effort debugging hint obtained from the external tracer
collaborator and carries no semantics in this core.
-/

namespace NmigenAst

/-- The closed set of `Value` variants of `fhdl/ast.py`.  Fields mirror the
attributes stored by each `__init__`.  `attrs` is an association list standing
for the ordered synthesis-attribute dictionary. -/
inductive Value : Type where
  | const (value : Int) (nbits : Int) (signed : Bool)
  | signal (duid : Nat) (nbits : Int) (signed : Bool) (reset : Int) (resetLess : Bool)
      (attrs : List (String × String))
  | operator (op : String) (operands : List Value)
  | slice (base : Value) (start : Int) (stop : Int)
  | part (base : Value) (offset : Value) (width : Int)
  | cat (operands : List Value)
  | repl (base : Value) (count : Int)
  | clockSignal (cd : String)
  | resetSignal (cd : String)
deriving Repr

/-- Embedding of `Operator._bitwise_binary_bits_sign(a, b)`: shape of a
bitwise binary operation given the shapes of the two operands. -/
def bbBitsSign : (Int × Bool) → (Int × Bool) → (Int × Bool)
  | (n1, false), (n2, false) => (max n1 n2, false)
  | (n1, true),  (n2, true)  => (max n1 n2, true)
  | (n1, false), (n2, true)  => (max (n1 + 1) n2, true)
  | (n1, true),  (n2, false) => (max n1 (n2 + 1), true)

/-- The dispatch on `self.op` inside `Operator.bits_sign`, applied to the list
`obs` of operand shapes.  Arity mismatches reproduce the Python failure: `*obs`
unpacking into a two-parameter function raises TypeError, an out-of-range
`obs[i]` raises IndexError.  The width of a constructible shift amount is a
nonnegative `Int`, so the Python `2 ** k` is `2 ^ k.toNat` here.  In the `"m"`
branch the source reads `return _bitwise_binary_bits_sign(obs[1], obs[2])`:
the bare name does not resolve (the function is a staticmethod of `Operator`
and is not a module-level binding), so evaluation raises NameError.  Any other
operator string falls into the final `raise TypeError`. -/
def opBitsSign (op : String) (obs : List (Int × Bool)) : Except String (Int × Bool) :=
  if op = "+" ∨ op = "-" then
    match obs with
    | [o] => if op = "-" ∧ o.2 = false then .ok (o.1 + 1, true) else .ok o
    | [a, b] => let r := bbBitsSign a b; .ok (r.1 + 1, r.2)
    | _ => .error "TypeError"
  else if op = "*" then
    match obs with
    | a :: b :: _ =>
      if a.2 = false ∧ b.2 = false then .ok (a.1 + b.1, false)
      else if a.2 = true ∧ b.2 = true then .ok (a.1 + b.1 - 1, true)
      else .ok (a.1 + b.1 + 1 - 1, true)
    | _ => .error "IndexError"
  else if op = "<<<" then
    match obs with
    | a :: b :: _ =>
      let extra : Int := if b.2 then 2 ^ (b.1 - 1).toNat - 1 else 2 ^ b.1.toNat - 1
      .ok (a.1 + extra, a.2)
    | _ => .error "IndexError"
  else if op = ">>>" then
    match obs with
    | a :: b :: _ =>
      let extra : Int := if b.2 then 2 ^ (b.1 - 1).toNat else 0
      .ok (a.1 + extra, a.2)
    | _ => .error "IndexError"
  else if op = "&" ∨ op = "^" ∨ op = "|" then
    match obs with
    | [a, b] => .ok (bbBitsSign a b)
    | _ => .error "TypeError"
  else if op = "<" ∨ op = "<=" ∨ op = "==" ∨ op = "!=" ∨ op = ">" ∨ op = ">=" then
    .ok (1, false)
  else if op = "~" then
    match obs with
    | o :: _ => .ok o
    | [] => .error "IndexError"
  else if op = "m" then
    .error "NameError"
  else
    .error "TypeError"

mutual

/-- Embedding of `Value.bits_sign` dispatched over the variants: `Const.bits_sign`,
`Signal.bits_sign`, `Operator.bits_sign`, `Slice.bits_sign`, `Part.bits_sign`,
`Cat.bits_sign`, `Repl.bits_sign`.  `ClockSignal` and `ResetSignal` do not
override the method and inherit `Value.bits_sign`, which raises TypeError. -/
def bitsSign : Value → Except String (Int × Bool)
  | .const _ n s => .ok (n, s)
  | .signal _ n s _ _ _ => .ok (n, s)
  | .operator op ops => do
      let obs ← bitsSignList ops
      opBitsSign op obs
  | .slice _ start stop => .ok (stop - start, false)
  | .part _ _ w => .ok (w, false)
  | .cat ops => do
      let n ← catWidth ops
      .ok (n, false)
  | .repl v c => do
      let s ← bitsSign v
      .ok (s.1 * c, false)
  | .clockSignal _ => .error "TypeError"
  | .resetSignal _ => .error "TypeError"

/-- Embedding of `list(map(lambda x: x.bits_sign(), self.operands))` in `Operator.bits_sign`:
the shapes of all operands, left to right, propagating the first failure. -/
def bitsSignList : List Value → Except String (List (Int × Bool))
  | [] => .ok []
  | v :: vs => do
      let o ← bitsSign v
      let os ← bitsSignList vs
      .ok (o :: os)

/-- Embedding of `sum(len(op) for op in self.operands)` in `Cat.bits_sign`, where
`len(op)` is `op.bits_sign()[0]`. -/
def catWidth : List Value → Except String Int
  | [] => .ok 0
  | v :: vs => do
      let s ← bitsSign v
      let r ← catWidth vs
      .ok (s.1 + r)

end

/-- Embedding of `Value.__len__`: `self.bits_sign()[0]`. -/
def valueLen (v : Value) : Except String Int := do
  let s ← bitsSign v
  .ok s.1

mutual

/-- Embedding of `Value._rhs_signals` dispatched over the variants: the set of
DUIDs of the signals read.  `Const` returns an empty `ValueSet`; `Signal`
returns itself; `Operator` and `Cat` take the union over their operands;
`Slice._rhs_signals` and `Part._rhs_signals` both return
`self.value._rhs_signals()` (for `Part` the `offset` sub-expression is not
consulted).  `Repl._rhs_signals` reads `return value._rhs_signals()`: the bare
name `value` is unbound inside the method (the attribute is `self.value`), so
evaluation raises NameError.  `ClockSignal` and `ResetSignal` do not override
the method and inherit `Value._rhs_signals`, which raises NotImplementedError. -/
def rhsSignals : Value → Except String (Finset Nat)
  | .const _ _ _ => .ok ∅
  | .signal d _ _ _ _ _ => .ok {d}
  | .operator _ ops => rhsSignalsList ops
  | .slice v _ _ => rhsSignals v
  | .part v _ _ => rhsSignals v
  | .cat ops => rhsSignalsList ops
  | .repl _ _ => .error "NameError"
  | .clockSignal _ => .error "NotImplementedError"
  | .resetSignal _ => .error "NotImplementedError"

/-- Modelled from the spec: `tools.union` (the `tools` module is not part of
the sources under review) applied to the generator of per-operand signal sets,
per §6 of the spec: for compound nodes the right-hand signal set is "the union
over sub-expressions", the empty union being the empty set. -/
def rhsSignalsList : List Value → Except String (Finset Nat)
  | [] => .ok ∅
  | v :: vs => do
      let s ← rhsSignals v
      let t ← rhsSignalsList vs
      .ok (s ∪ t)

end

/-- The pairs of operand variants that `Value.__bool__` handles under an
`"=="` operator: two `Const`, two `Signal`, or one of each. -/
def specialPair : Value → Value → Bool
  | .const _ _ _, .const _ _ _ => true
  | .signal _ _ _ _ _ _, .signal _ _ _ _ _ _ => true
  | .const _ _ _, .signal _ _ _ _ _ _ => true
  | .signal _ _ _ _ _ _, .const _ _ _ => true
  | _, _ => false

/-- Whether a `Value` is an `Operator` node. -/
def isOperatorNode : Value → Bool
  | .operator _ _ => true
  | _ => false

/-- Embedding of `Value.__bool__`: only an `Operator` with `op == "=="` is considered; its
two operands are unpacked (a list of any other length fails the unpacking with
ValueError); two `Const`s compare by `value`, two `Signal`s by object identity
(`a is b`, here DUID equality since the allocator makes DUIDs unique per
instance), a `Const`/`Signal` mix is `False`; every remaining case reaches
`raise TypeError`. -/
def valueBool (v : Value) : Except String Bool :=
  match v with
  | .operator op ops =>
      if op = "==" then
        match ops with
        | [a, b] =>
          match a, b with
          | .const va _ _, .const vb _ _ => .ok (decide (va = vb))
          | .signal d1 _ _ _ _ _, .signal d2 _ _ _ _ _ => .ok (decide (d1 = d2))
          | .const _ _ _, .signal _ _ _ _ _ _ => .ok false
          | .signal _ _ _ _ _ _, .const _ _ _ => .ok false
          | _, _ => .error "TypeError"
        | _ => .error "ValueError"
      else .error "TypeError"
  | _ => .error "TypeError"

/-- Embedding of `Mux(sel, val1, val0)`: `Operator("m", [sel, val1, val0])`. -/
def Mux (sel val1 val0 : Value) : Value := .operator "m" [sel, val1, val0]

/-- Embedding of `Value.bool`: `Operator("b", [self])`. -/
def Value.bool (v : Value) : Value := .operator "b" [v]

/-- Embedding of `Slice.__init__`: both bounds must be inside the `range` checks computed
from `n = len(value)`; a negative bound is normalized by adding `n`.  The
Python membership tests `start not in range(-n, n)` and
`end not in range(-(n+1), n+1)` are the interval conditions spelled out here
(an empty `range` contains nothing, which the inequalities reproduce). -/
def sliceInit (v : Value) (start stop : Int) : Except String Value := do
  let n ← valueLen v
  if ¬ (-n ≤ start ∧ start < n) then .error "IndexError"
  else
    let start := if start < 0 then start + n else start
    if ¬ (-(n + 1) ≤ stop ∧ stop < n + 1) then .error "IndexError"
    else
      let stop := if stop < 0 then stop + n else stop
      .ok (.slice v start stop)

/-- The `bits_sign` argument accepted by `Const.__init__` and
`Signal.__init__`: `None`, a bare integer width, or a `(bits, signed)` pair. -/
inductive BitsSpec : Type where
  | unspecified
  | width (n : Int)
  | pair (n : Int) (s : Bool)
deriving Repr, DecidableEq

/-- Python `int.bit_length` on a natural number. -/
def natBitLength (n : Nat) : Nat := if n = 0 then 0 else Nat.log2 n + 1

/-- Python `int.bit_length`: the bit length of the absolute value. -/
def intBitLength (v : Int) : Int := natBitLength v.natAbs

/-- Embedding of `Const.__init__`: with `bits_sign` equal to `None` the shape defaults to
`(value.bit_length(), value < 0)`; a bare integer width keeps the
value-derived signedness; a pair is taken as is.  A negative width reaches
`raise TypeError` (the message of which misleadingly says "positive"). -/
def constInit (value : Int) (bs : BitsSpec) : Except String Value :=
  let ns : Int × Bool :=
    match bs with
    | .unspecified => (intBitLength value, decide (value < 0))
    | .width n => (n, decide (value < 0))
    | .pair n s => (n, s)
  if ns.1 < 0 then .error "TypeError"
  else .ok (.const value ns.1 ns.2)

/-- Modelled from the spec: the minimal-width-for-range collaborator
(`tools.bits_for`, not part of the sources under review); §6: "given an
integer bound and a signedness flag, returns the minimum bit width needed to
represent it", the sign bit included when the flag is set. -/
def bitsFor (b : Int) (signed : Bool) : Int :=
  if signed then
    if 0 ≤ b then intBitLength b + 1 else intBitLength (-b - 1) + 1
  else intBitLength b

/-- Embedding of `Signal.__init__` (the name-resolution path is omitted: the tracer is an
external collaborator and never makes construction fail).  With `bits_sign`
equal to `None` the shape comes from the inclusive-exclusive `min`/`max`
bounds (defaults 0 and 2); `max` is first decremented and a non-increasing
range reaches `raise ValueError`.  With a bare integer width the guard is
`if not (min is None or max is None)`, so the ValueError fires only when BOTH
bounds are supplied; with a `(bits, signed)` pair no bounds check exists at
all.  A negative width reaches the final `raise TypeError`. -/
def signalInit (bs : BitsSpec) (mn mx : Option Int) (reset : Int) (resetLess : Bool)
    (attrs : List (String × String)) (duid : Nat) : Except String Value :=
  match bs with
  | .unspecified =>
      let lo := mn.getD 0
      let hi := mx.getD 2 - 1
      if ¬ (lo < hi) then .error "ValueError"
      else
        let s := decide (lo < 0 ∨ hi < 0)
        let n := max (bitsFor lo s) (bitsFor hi s)
        if n < 0 then .error "TypeError" else .ok (.signal duid n s reset resetLess attrs)
  | .width n =>
      if mn.isSome && mx.isSome then .error "ValueError"
      else if n < 0 then .error "TypeError"
      else .ok (.signal duid n false reset resetLess attrs)
  | .pair n s =>
      if n < 0 then .error "TypeError" else .ok (.signal duid n s reset resetLess attrs)

/-- Embedding of `Signal.like(other)` with no overrides: `kw` starts from
`bits_sign=cls.wrap(other).bits_sign()`; when `other` is itself a `Signal` the
update reads `reset=other.reset.value`, but `other.reset` is the integer
stored by `Signal.__init__` and an integer has no attribute `value`, so the
access raises AttributeError.  For any other `Value` the constructor is called
with just the inferred shape. -/
def signalLike (other : Value) (duid : Nat) : Except String Value := do
  let s ← bitsSign other
  match other with
  | .signal _ _ _ _ _ _ => .error "AttributeError"
  | _ => signalInit (.pair s.1 s.2) none none 0 false [] duid

/-- A statement, for use as the body of a `Switch` case.  `Statement.wrap` on
an already-flat list of statements returns that list unchanged, so case bodies
are taken here as flat statement lists. -/
inductive Stmt : Type where
  | assign (lhs rhs : Value)
deriving Repr

/-- The kinds of case key accepted by `Switch.__init__`: `bool`, `int` or
`str` (anything else reaches `raise TypeError`). -/
inductive CaseKey : Type where
  | intKey (k : Int)
  | boolKey (b : Bool)
  | strKey (s : String)
deriving Repr, DecidableEq

/-- The digits of `n` written in binary, most significant first; a single
digit for `n < 2` (Python renders 0 as "0"). -/
def natBinDigits (n : Nat) : List Char :=
  if _h : n < 2 then [if n = 1 then '1' else '0']
  else natBinDigits (n / 2) ++ [if n % 2 = 1 then '1' else '0']
decreasing_by exact Nat.div_lt_self (by omega) (by omega)

/-- The Python format operation `"{:0{}b}".format(v, w)`: binary digits of
`v`, zero-padded on the left to a MINIMUM total length of `w` (a value whose
binary form needs more than `w` digits yields a longer string; for a negative
value the sign character counts toward the length and precedes the padding). -/
def pyBinFormat (v : Int) (w : Nat) : String :=
  if v < 0 then
    let s := natBinDigits (-v).toNat
    ⟨'-' :: (List.replicate (w - 1 - s.length) '0' ++ s)⟩
  else
    let s := natBinDigits v.toNat
    ⟨List.replicate (w - s.length) '0' ++ s⟩

/-- The per-key normalization in the loop of `Switch.__init__`: a `bool` or
`int` key is rendered with `"{:0{}b}".format(key, len(test))` (Python formats
`True` as 1 and `False` as 0); a `str` key is kept but
`assert len(key) == len(test)` fails for any other length. -/
def renderKey (testLen : Nat) : CaseKey → Except String String
  | .intKey k => .ok (pyBinFormat k testLen)
  | .boolKey b => .ok (pyBinFormat (if b then 1 else 0) testLen)
  | .strKey s => if s.length = testLen then .ok s else .error "AssertionError"

/-- Insertion into the `OrderedDict` `self.cases`: an existing key keeps its
position and has its value replaced; a new key is appended. -/
def odInsert (m : List (String × List Stmt)) (k : String) (v : List Stmt) :
    List (String × List Stmt) :=
  if m.any (fun p => p.1 == k) then m.map (fun p => if p.1 == k then (k, v) else p)
  else m ++ [(k, v)]

/-- The loop of `Switch.__init__` over `cases.items()`, carrying the
`OrderedDict` built so far. -/
def switchGo (testLen : Nat) (acc : List (String × List Stmt)) :
    List (CaseKey × List Stmt) → Except String (List (String × List Stmt))
  | [] => .ok acc
  | (k, ss) :: rest => do
      let p ← renderKey testLen k
      switchGo testLen (odInsert acc p ss) rest

/-- Embedding of `Switch.__init__` restricted to what it stores in `self.cases`: the test
is wrapped and only its width matters here, so it is passed as `testLen`. -/
def switchInit (testLen : Nat) (cases : List (CaseKey × List Stmt)) :
    Except String (List (String × List Stmt)) :=
  switchGo testLen [] cases

/-- The rendered patterns of a supplied case list, in order: left-to-right
application of the key normalization, propagating the first failure. -/
def renderKeys (testLen : Nat) : List (CaseKey × List Stmt) → Except String (List String)
  | [] => .ok []
  | (k, _) :: rest => do
      let p ← renderKey testLen k
      let ps ← renderKeys testLen rest
      .ok (p :: ps)

end NmigenAst

namespace NmigenAst

/-- Claim C1: the claim states that every successfully constructed `Slice` has
`0 <= start <= end <= len(base)` and hence nonnegative inferred width.  The
code checks each bound separately against the width of the base but never
compares `start` with `end`: on a 2-bit base, `Slice(base, 1, 0)` is accepted
and its inferred shape is `(-1, False)` — a negative width. -/
theorem slice_reversed_bounds_accepted :
    sliceInit (.signal 0 2 false 0 false []) 1 0
      = .ok (.slice (.signal 0 2 false 0 false []) 1 0)
  ∧ bitsSign (.slice (.signal 0 2 false 0 false []) 1 0) = .ok (-1, false) := by
  constructor
  · simp [sliceInit, valueLen, bitsSign, Bind.bind, Except.bind]
  · simp [bitsSign]

/-- Claim C2: the claim states that a mux `Operator` infers the `combine` of
the two value operands.  In the `"m"` branch of `Operator.bits_sign` the call
`_bitwise_binary_bits_sign(obs[1], obs[2])` refers to a name that is not in
scope (the staticmethod is only reachable as `self._bitwise_binary_bits_sign`
or `Operator._bitwise_binary_bits_sign`), so shape inference on any mux node
raises NameError instead of returning `(max(n1,n2), False)`. -/
theorem mux_bits_sign_name_error :
    bitsSign (Mux (.const 0 1 false) (.const 3 4 false) (.const 4 4 false)) =
      .error "NameError" := by
  simp [Mux, bitsSign, bitsSignList, opBitsSign, Bind.bind, Except.bind]

/-- Claim C3: the claim states that requesting the right-hand signal set
succeeds for every variant.  It does not: `Repl._rhs_signals` refers to the
unbound name `value` and raises NameError; `ClockSignal` and `ResetSignal`
inherit the base method, which raises NotImplementedError; and
`Part._rhs_signals` consults only the base, dropping every signal read by the
`offset` sub-expression (DUID 2 below). -/
theorem rhs_signals_incomplete :
    rhsSignals (.repl (.signal 7 1 false 0 false []) 2) = .error "NameError"
  ∧ rhsSignals (.clockSignal "sys") = .error "NotImplementedError"
  ∧ rhsSignals (.resetSignal "sys") = .error "NotImplementedError"
  ∧ rhsSignals (.part (.signal 1 4 false 0 false []) (.signal 2 2 false 0 false []) 2) =
      .ok {1} := by
  refine ⟨?_, ?_, ?_, ?_⟩ <;> simp [rhsSignals]

/-- Claim C4: the claim states that `Value.bool()` produces a node whose
inferred shape is `(1, False)`.  `Value.bool` builds `Operator("b", [self])`,
but `Operator.bits_sign` has no `"b"` branch, so the dispatch falls through
to `raise TypeError` instead. -/
theorem boolify_bits_sign_type_error :
    bitsSign (Value.bool (.const 5 3 false)) = .error "TypeError" := by
  simp [Value.bool, bitsSign, bitsSignList, opBitsSign, Bind.bind, Except.bind]

/-- Claim C5: the claim states that `Signal.like(other)` succeeds for every
Signal `other`, cloning shape, reset, reset-less flag and attributes.  The
update reads `reset=other.reset.value`, but `other.reset` is the plain integer
stored by `Signal.__init__`, which has no attribute `value`: `like` on any
Signal raises AttributeError.  The non-Signal path (second conjunct) does
succeed and clones only the shape. -/
theorem signal_like_attribute_error :
    signalLike (.signal 3 8 false 7 true [("keep", "true")]) 4 = .error "AttributeError"
  ∧ signalLike (.const 5 8 false) 4 = .ok (.signal 4 8 false 0 false []) := by
  constructor <;> simp [signalLike, bitsSign, signalInit, Bind.bind, Except.bind]

/-- Claim C6: the claim states that an explicit width (bare or as a
`(width, signed)` pair) combined with a `min` or `max` bound fails with the
bounds-conflict ValueError.  The guard in the bare-width branch is
`if not (min is None or max is None)`, which fires only when BOTH bounds are
given, and the tuple branch has no guard at all: a pair with both bounds and a
bare width with a single bound are accepted, the bounds silently ignored.
Only a bare width with both bounds raises (third conjunct). -/
theorem signal_bounds_conflict_unchecked :
    signalInit (.pair 8 false) (some 0) (some 5) 0 false [] 0 =
      .ok (.signal 0 8 false 0 false [])
  ∧ signalInit (.width 8) (some 3) none 0 false [] 1 = .ok (.signal 1 8 false 0 false [])
  ∧ signalInit (.width 8) (some 0) (some 5) 0 false [] 2 = .error "ValueError" := by
  refine ⟨?_, ?_, ?_⟩ <;> simp [signalInit]

/-- Claim C7: host-language truthiness of a `Value`.  Under an `"=="`
operator, two `Const`s boolify to the equality of their literal values, two
`Signal`s to object identity (DUID equality), and a `Const`/`Signal` mix to
false; a two-operand `"=="` node of any other operand shapes, an `Operator`
of any other kind, and every non-`Operator` value all fail to boolify. -/
theorem value_bool_eq_special_cases :
    (∀ va na sa vb nb sb,
      valueBool (.operator "==" [.const va na sa, .const vb nb sb]) = .ok (decide (va = vb)))
  ∧ (∀ d1 n1 s1 r1 l1 a1 d2 n2 s2 r2 l2 a2,
      valueBool (.operator "==" [.signal d1 n1 s1 r1 l1 a1, .signal d2 n2 s2 r2 l2 a2]) =
        .ok (decide (d1 = d2)))
  ∧ (∀ va na sa d n s r l a,
      valueBool (.operator "==" [.const va na sa, .signal d n s r l a]) = .ok false
    ∧ valueBool (.operator "==" [.signal d n s r l a, .const va na sa]) = .ok false)
  ∧ (∀ a b, specialPair a b = false →
      valueBool (.operator "==" [a, b]) = .error "TypeError")
  ∧ (∀ op ops, op ≠ "==" → valueBool (.operator op ops) = .error "TypeError")
  ∧ (∀ v, isOperatorNode v = false → valueBool v = .error "TypeError") := by
  refine ⟨?_, ?_, ?_, ?_, ?_, ?_⟩
  · intro va na sa vb nb sb; simp [valueBool]
  · intro d1 n1 s1 r1 l1 a1 d2 n2 s2 r2 l2 a2; simp [valueBool]
  · intro va na sa d n s r l a; exact ⟨by simp [valueBool], by simp [valueBool]⟩
  · intro a b h
    cases a <;> cases b <;> simp_all [valueBool, specialPair]
  · intro op ops h; simp [valueBool, h]
  · intro v h; cases v <;> simp_all [valueBool, isOperatorNode]

/-- Witness for C7 at concrete inputs: two equal slices under `"=="` are not
one of the special operand shapes, so boolification fails. -/
theorem value_bool_eq_special_cases_witness :
    valueBool (.operator "=="
      [.slice (.const 0 1 false) 0 1, .slice (.const 0 1 false) 0 1]) = .error "TypeError" :=
  value_bool_eq_special_cases.2.2.2.1 _ _ (by rfl)

/-- Claim C8: inferred shapes of shift operators, for a first operand of
shape `(n1, s1)` and a shift amount of width `n2`: a left shift widens by
`2 ^ n2 - 1` for an unsigned amount and by `2 ^ (n2 - 1) - 1` for a signed
one; a right shift keeps `n1` for an unsigned amount and widens by
`2 ^ (n2 - 1)` for a signed one; the result signedness is `s1` in all four
cases.  The hypothesis `1 ≤ n2` pins the Python `2 ** k` (whose exponent is
the width of a constructed shift-amount operand) to `2 ^ k.toNat`. -/
theorem shift_bits_sign_inference (n1 n2 : Int) (s1 : Bool) (_h : 1 ≤ n2) :
    bitsSign (.operator "<<<" [.const 0 n1 s1, .const 0 n2 false]) =
      .ok (n1 + (2 ^ n2.toNat - 1), s1)
  ∧ bitsSign (.operator "<<<" [.const 0 n1 s1, .const 0 n2 true]) =
      .ok (n1 + (2 ^ (n2 - 1).toNat - 1), s1)
  ∧ bitsSign (.operator ">>>" [.const 0 n1 s1, .const 0 n2 false]) = .ok (n1, s1)
  ∧ bitsSign (.operator ">>>" [.const 0 n1 s1, .const 0 n2 true]) =
      .ok (n1 + 2 ^ (n2 - 1).toNat, s1) := by
  refine ⟨?_, ?_, ?_, ?_⟩ <;>
    simp [bitsSign, bitsSignList, opBitsSign, Bind.bind, Except.bind]

/-- Witness for C8 at `n1 = 4`, `n2 = 2`, `s1 = false`. -/
theorem shift_bits_sign_inference_witness :
    bitsSign (.operator "<<<" [.const 0 4 false, .const 0 2 false]) =
      .ok (4 + (2 ^ (2 : Int).toNat - 1), false)
  ∧ bitsSign (.operator "<<<" [.const 0 4 false, .const 0 2 true]) =
      .ok (4 + (2 ^ ((2 : Int) - 1).toNat - 1), false)
  ∧ bitsSign (.operator ">>>" [.const 0 4 false, .const 0 2 false]) = .ok (4, false)
  ∧ bitsSign (.operator ">>>" [.const 0 4 false, .const 0 2 true]) =
      .ok (4 + 2 ^ ((2 : Int) - 1).toNat, false) :=
  shift_bits_sign_inference 4 2 false (by norm_num)

/-- Claim C10: a `Const` built from a bare integer width derives its
signedness from the sign of the literal value rather than defaulting to
unsigned (first conjunct; the second shows the same derivation on the
defaulted shape); a width of exactly 0 is accepted (third conjunct) and only
a negative width is rejected (fourth conjunct). -/
theorem const_bare_width_signedness (v n m : Int) (h : 0 ≤ n) (hm : m < 0) :
    constInit v (.width n) = .ok (.const v n (decide (v < 0)))
  ∧ constInit v .unspecified = .ok (.const v (intBitLength v) (decide (v < 0)))
  ∧ constInit v (.width 0) = .ok (.const v 0 (decide (v < 0)))
  ∧ constInit v (.width m) = .error "TypeError" := by
  refine ⟨?_, ?_, ?_, ?_⟩
  · simp only [constInit]
    rw [if_neg (by omega)]
  · simp only [constInit, intBitLength]
    rw [if_neg (by omega)]
  · simp [constInit]
  · simp only [constInit]
    rw [if_pos hm]

theorem natBinDigits_length_le (w : Nat) :
    ∀ k, k < 2 ^ w → 1 ≤ w → (natBinDigits k).length ≤ w := by
  induction w with
  | zero => intro k _ h1; omega
  | succ w ih =>
    intro k hk _
    by_cases h2 : k < 2
    · unfold natBinDigits
      rw [dif_pos h2]
      simp
    · unfold natBinDigits
      rw [dif_neg h2]
      have hw : 1 ≤ w := by
        by_contra hw0
        have hzero : w = 0 := by omega
        subst hzero
        norm_num at hk
        omega
      have hk2 : k / 2 < 2 ^ w := by
        rw [pow_succ] at hk
        omega
      have hlen := ih (k / 2) hk2 hw
      simp only [List.length_append, List.length_cons, List.length_nil]
      omega

theorem pyBinFormat_length (k : Int) (w : Nat) (h0 : 0 ≤ k) (hk : k < 2 ^ w)
    (hw : 1 ≤ w) : (pyBinFormat k w).length = w := by
  unfold pyBinFormat
  rw [if_neg (by omega)]
  have hcast : ((2 ^ w : Nat) : Int) = 2 ^ w := by push_cast; ring
  rw [← hcast] at hk
  have hkn : k.toNat < 2 ^ w := by omega
  have hlen := natBinDigits_length_le w k.toNat hkn hw
  simp only [String.length, List.length_append, List.length_replicate]
  omega

theorem natBinDigits_length_pos (k : Nat) : 1 ≤ (natBinDigits k).length := by
  unfold natBinDigits
  split
  · simp
  · simp only [List.length_append, List.length_cons, List.length_nil]
    omega

theorem natBinDigits_length_ge (w : Nat) :
    ∀ k, 2 ^ w ≤ k → w + 1 ≤ (natBinDigits k).length := by
  induction w with
  | zero => intro k _; exact natBinDigits_length_pos k
  | succ w ih =>
    intro k hk
    have hpow : 2 ≤ 2 ^ (w + 1) := by
      have h1 : 0 < 2 ^ w := pow_pos (by norm_num) w
      rw [pow_succ]
      omega
    have h2 : ¬ k < 2 := by omega
    unfold natBinDigits
    rw [dif_neg h2]
    have hdiv : 2 ^ w ≤ k / 2 := by
      rw [pow_succ] at hk
      omega
    have hrec := ih (k / 2) hdiv
    simp only [List.length_append, List.length_cons, List.length_nil]
    omega

theorem pyBinFormat_length_gt (k : Int) (w : Nat) (hk : (2 : Int) ^ w ≤ k) :
    w < (pyBinFormat k w).length := by
  have hpow : (0 : Int) < 2 ^ w := by positivity
  unfold pyBinFormat
  rw [if_neg (by omega)]
  have hcast : ((2 ^ w : Nat) : Int) = 2 ^ w := by push_cast; ring
  rw [← hcast] at hk
  have hkn : 2 ^ w ≤ k.toNat := by omega
  have hlen := natBinDigits_length_ge w k.toNat hkn
  simp only [String.length, List.length_append, List.length_replicate]
  omega

theorem odInsert_of_not_mem (m : List (String × List Stmt)) (k : String) (v : List Stmt)
    (h : k ∉ m.map Prod.fst) : odInsert m k v = m ++ [(k, v)] := by
  have hc : (m.any fun p => p.1 == k) ≠ true := by
    intro hc
    rw [List.any_eq_true] at hc
    obtain ⟨p, hp, he⟩ := hc
    exact h (List.mem_map.mpr ⟨p, hp, by simpa using he⟩)
  unfold odInsert
  rw [if_neg hc]

theorem switchGo_eq_zip (testLen : Nat) :
    ∀ (cases : List (CaseKey × List Stmt)) (acc : List (String × List Stmt))
      (ps : List String),
      renderKeys testLen cases = .ok ps →
      (acc.map Prod.fst ++ ps).Nodup →
      switchGo testLen acc cases = .ok (acc ++ ps.zip (cases.map Prod.snd)) := by
  intro cases
  induction cases with
  | nil =>
    intro acc ps hr _
    simp only [renderKeys] at hr
    cases hr
    simp [switchGo]
  | cons c rest ih =>
    intro acc ps hr hnd
    obtain ⟨k, ss⟩ := c
    simp only [renderKeys, Bind.bind, Except.bind] at hr
    cases hrk : renderKey testLen k with
    | error e => rw [hrk] at hr; simp at hr
    | ok p =>
      rw [hrk] at hr
      cases hrs : renderKeys testLen rest with
      | error e => rw [hrs] at hr; simp at hr
      | ok ps' =>
        rw [hrs] at hr
        simp only [Except.ok.injEq] at hr
        subst hr
        have hmem : p ∉ acc.map Prod.fst := by
          rcases List.nodup_append.mp hnd with ⟨_, _, hdisj⟩
          intro hp
          exact hdisj hp (by simp)
        have hnd' : ((acc ++ [(p, ss)]).map Prod.fst ++ ps').Nodup := by
          simp only [List.map_append, List.map_cons, List.map_nil, List.append_assoc,
            List.singleton_append]
          simpa using hnd
        have hrec := ih (acc ++ [(p, ss)]) ps' hrs hnd'
        simp only [switchGo, Bind.bind, Except.bind, hrk]
        rw [odInsert_of_not_mem acc p ss hmem, hrec]
        simp [List.append_assoc]

/-- Claim C9, counterexample: the claim states that every integer or boolean
case key is rendered to a pattern whose length equals `len(test)` and that the
constructed case order equals the supplied order.  Three concrete refutations:
the Python format `"{:0{}b}".format(key, len(test))` only pads to a MINIMUM
width, so with a 2-bit test the integer key 4 is accepted and rendered to the
3-character pattern "100" (first two conjuncts); with a 0-width test the key 0
is rendered to "0" of length 1 (next two conjuncts); and two supplied cases
whose keys render to the same pattern "010" collapse into a single constructed
case that sits at the first position but carries the SECOND body, so the
constructed sequence does not equal the two supplied cases in their order
(last conjunct). -/
theorem switch_wide_key_counterexample :
    switchInit 2 [(.intKey 4, [])] = .ok [("100", [])]
  ∧ ("100" : String).length ≠ 2
  ∧ switchInit 0 [(.intKey 0, [])] = .ok [("0", [])]
  ∧ ("0" : String).length ≠ 0
  ∧ switchInit 3 [(.intKey 2, []),
      (.strKey "010", [.assign (.signal 0 1 false 0 false []) (.const 1 1 false)])] =
      .ok [("010", [.assign (.signal 0 1 false 0 false []) (.const 1 1 false)])] := by
  refine ⟨?_, by decide, ?_, by decide, ?_⟩
  · simp [switchInit, switchGo, renderKey, pyBinFormat, natBinDigits, odInsert,
      Bind.bind, Except.bind]
  · simp [switchInit, switchGo, renderKey, pyBinFormat, natBinDigits, odInsert,
      Bind.bind, Except.bind]
  · simp [switchInit, switchGo, renderKey, pyBinFormat, natBinDigits, odInsert,
      Bind.bind, Except.bind]
    rfl

/-- Claim C9 as amended: integer and boolean case keys are rendered by
zero-padded binary formatting to a minimum width of `len(test)`.  For a test
of width `n >= 1`: every integer key `k` with `0 <= k < 2 ^ n`, and every
boolean key, is rendered to a pattern of length exactly `n` (first two
conjuncts), while every integer key `>= 2 ^ n` is accepted and rendered to a
strictly longer pattern (third conjunct).  A string key whose length differs
from `n` fails construction (fourth conjunct).  When the rendered patterns of
the supplied cases are pairwise distinct, the constructed `Switch` pairs those
patterns with the supplied bodies in exactly the supplied order (last
conjunct). -/
theorem switch_rendering_amended (n : Nat) (k ko : Int) (b : Bool) (s : String)
    (cases : List (CaseKey × List Stmt)) (ps : List String)
    (hn : 1 ≤ n) (h0 : 0 ≤ k) (hk : k < 2 ^ n) (hko : (2 : Int) ^ n ≤ ko)
    (hs : s.length ≠ n)
    (hr : renderKeys n cases = .ok ps) (hnd : ps.Nodup) :
    (pyBinFormat k n).length = n
  ∧ (pyBinFormat (if b then 1 else 0) n).length = n
  ∧ n < (pyBinFormat ko n).length
  ∧ renderKey n (.strKey s) = .error "AssertionError"
  ∧ switchInit n cases = .ok (ps.zip (cases.map Prod.snd)) := by
  have h2n : (2 : Int) ≤ 2 ^ n := by
    calc (2 : Int) = 2 ^ 1 := (pow_one 2).symm
    _ ≤ 2 ^ n := pow_le_pow_right₀ (by norm_num) hn
  refine ⟨pyBinFormat_length k n h0 hk hn, ?_, pyBinFormat_length_gt ko n hko, ?_, ?_⟩
  · exact pyBinFormat_length _ n (by cases b <;> norm_num)
      (by cases b <;> simp <;> omega) hn
  · simp [renderKey, hs]
  · have hgo := switchGo_eq_zip n cases [] ps hr (by simpa using hnd)
    simpa [switchInit] using hgo

/-- Witness for C9 (amended) at `n = 3`, `k = 2`, `ko = 9`, `b = true`,
`s = "01"`, a single case with integer key 2: the rendered pattern is "010" of
length 3. -/
theorem switch_rendering_amended_witness :
    (pyBinFormat 2 3).length = 3
  ∧ (pyBinFormat (if true then 1 else 0) 3).length = 3
  ∧ 3 < (pyBinFormat 9 3).length
  ∧ renderKey 3 (.strKey "01") = .error "AssertionError"
  ∧ switchInit 3 [(.intKey 2, [])] =
      .ok (["010"].zip ([((.intKey 2 : CaseKey), ([] : List Stmt))].map Prod.snd)) :=
  switch_rendering_amended 3 2 9 true "01" [(.intKey 2, [])] ["010"] (by norm_num)
    (by norm_num) (by norm_num) (by norm_num) (by decide)
    (by simp [renderKeys, renderKey, pyBinFormat, natBinDigits, Bind.bind, Except.bind])
    (by decide)

/-- Witness for C10 at `v = -6`, `n = 4`, `m = -1`. -/
theorem const_bare_width_signedness_witness :
    constInit (-6) (.width 4) = .ok (.const (-6) 4 (decide ((-6 : Int) < 0)))
  ∧ constInit (-6) .unspecified =
      .ok (.const (-6) (intBitLength (-6)) (decide ((-6 : Int) < 0)))
  ∧ constInit (-6) (.width 0) = .ok (.const (-6) 0 (decide ((-6 : Int) < 0)))
  ∧ constInit (-6) (.width (-1)) = .error "TypeError" :=
  const_bare_width_signedness (-6) 4 (-1) (by norm_num) (by norm_num)

end NmigenAst
